import Mathlib

/-!
Verification of the Shehab-bot conversational agent loop.

This file shallowly embeds the core control logic of the repository:
the per-context conversation store with its truncation policy
(`src/index.js`), the brain orchestrator `thinkAndAct`
(`src/src/agent/brain.js`), the Gemini message handler with its regex
failsafe chain (second variant of `src/index.js`), the Groq handler
variants (`src/unnamed/part_000`, `src/unnamed/part_004`) with their
JSON failsafe blocks, and the key-value memory module
(`src/src/utils/memory.js`).

External collaborators (the Slack transport, the model endpoints, the
GitHub/Jira/search/vision integrations, the vector memory) are modelled
as oracle parameters; the control flow around them is translated from
the source line by line.
-/

set_option maxHeartbeats 1000000
set_option maxRecDepth 4000

namespace Shehab

/-! ## Basic JavaScript-flavoured string helpers -/

/-- Single-quote character, written via its code point. -/
def sq : Char := Char.ofNat 39

/-- Double-quote character. -/
def dq : Char := Char.ofNat 34

/-- Opening-brace character. -/
def obr : Char := Char.ofNat 123

/-- Closing-brace character. -/
def cbr : Char := Char.ofNat 125

/-- Boolean prefix test on character lists. -/
def listPrefixB : List Char → List Char → Bool
  | [], _ => true
  | _ :: _, [] => false
  | a :: as, b :: bs => a == b && listPrefixB as bs

/-- Boolean contiguous-sublist test on character lists. -/
def listContainsB (pat : List Char) : List Char → Bool
  | [] => listPrefixB pat []
  | c :: rest => listPrefixB pat (c :: rest) || listContainsB pat rest

/-- Model of JavaScript `s.includes(pat)`. -/
def strIncludes (s pat : String) : Bool :=
  listContainsB pat.toList s.toList

/-- Model of JavaScript `x || d` for a possibly null/undefined string:
the default is used when the string is absent or empty (both falsy). -/
def jsOr (x : Option String) (d : String) : String :=
  match x with
  | none => d
  | some t => if t = "" then d else t

/-- Model of JavaScript `t || d` for a present string: empty is falsy. -/
def jsOrStr (t d : String) : String :=
  if t = "" then d else t

/-- Model of JavaScript `t.trim()` (on the space/tab/newline/return
whitespace class). -/
def jsTrim (t : String) : String :=
  String.mk
    (((t.toList.dropWhile fun c =>
        c == ' ' || c == '\t' || c == '\n' || c == '\r').reverse.dropWhile fun c =>
        c == ' ' || c == '\t' || c == '\n' || c == '\r').reverse)

/-! ## A small JSON value model

Arguments of tool calls and failsafe payloads are produced by
`JSON.parse`.  We model JSON values with integer numbers and strings
without escape sequences, which covers every payload the claims are
about; inputs outside this fragment make the parser fail. -/

/-- JSON values as produced by `JSON.parse`. -/
inductive JVal where
  | jnull : JVal
  | jbool (b : Bool) : JVal
  | jnum (n : Int) : JVal
  | jstr (s : String) : JVal
  | jarr (elems : List JVal) : JVal
  | jobj (fields : List (String × JVal)) : JVal
deriving Inhabited

/-- Model of JavaScript `s.startsWith(pre)`. -/
def jsStartsWith (s pre : String) : Bool :=
  listPrefixB pre.toList s.toList

/-- Model of JavaScript `s.toLowerCase()` on ASCII text. -/
def jsToLower (s : String) : String :=
  String.mk (s.toList.map Char.toLower)

/-- First-match association lookup. -/
def assocGet {α : Type} (k : String) : List (String × α) → Option α
  | [] => none
  | (k2, v) :: rest => if k = k2 then some v else assocGet k rest

/-- Property access `v[k]` on a parsed value: `none` models `undefined`.
JavaScript keeps the last duplicate key, hence the reversed lookup. -/
def jget (v : JVal) (k : String) : Option JVal :=
  match v with
  | .jobj fields => assocGet k fields.reverse
  | _ => none

/-- JavaScript truthiness of a JSON value. -/
def jsTruthy : JVal → Bool
  | .jnull => false
  | .jbool b => b
  | .jnum n => n != 0
  | .jstr s => s != ""
  | .jarr _ => true
  | .jobj _ => true

/-- Model of `a || b` on possibly-undefined JSON values. -/
def jsOrJ (a b : Option JVal) : Option JVal :=
  match a with
  | some v => if jsTruthy v then some v else b
  | none => b

/-- Model of JavaScript `String(x)` on a possibly-undefined value. -/
def toJsString : Option JVal → String
  | none => "undefined"
  | some .jnull => "null"
  | some (.jbool true) => "true"
  | some (.jbool false) => "false"
  | some (.jnum n) => toString n
  | some (.jstr s) => s
  | some (.jarr _) => ""
  | some (.jobj _) => "[object Object]"

/-! ## The JSON parser

A recursive-descent model of `JSON.parse` on the fragment above,
driven by a fuel argument. -/

/-- JSON whitespace test. -/
def isWsChar (c : Char) : Bool :=
  c == ' ' || c == '\t' || c == '\n' || c == '\r'

/-- Skip leading whitespace. -/
def skipWsJ (cs : List Char) : List Char :=
  cs.dropWhile isWsChar

/-- Parse the body of a string literal after the opening quote;
escape sequences are outside the modelled fragment. -/
def parseStrAux : List Char → List Char → Option (String × List Char)
  | _, [] => none
  | acc, c :: rest =>
    if c == dq then some (String.mk acc.reverse, rest)
    else if c == '\\' then none
    else parseStrAux (c :: acc) rest

/-- Parse a run of decimal digits into a natural number. -/
def parseDigits : Nat → List Char → Option (Nat × List Char)
  | acc, c :: rest =>
    if c.isDigit then parseDigits (acc * 10 + (c.toNat - 48)) rest
    else some (acc, c :: rest)
  | acc, [] => some (acc, [])

/-- Parse an integer literal (optional leading minus). -/
def parseNumLit (cs : List Char) : Option (JVal × List Char) :=
  match cs with
  | '-' :: c :: rest =>
    if c.isDigit then
      match parseDigits 0 (c :: rest) with
      | some (n, r) => some (.jnum (-(n : Int)), r)
      | none => none
    else none
  | c :: rest =>
    if c.isDigit then
      match parseDigits 0 (c :: rest) with
      | some (n, r) => some (.jnum (n : Int), r)
      | none => none
    else none
  | [] => none

mutual

/-- Parse one JSON value. -/
def parseVal : Nat → List Char → Option (JVal × List Char)
  | 0, _ => none
  | Nat.succ fuel, cs0 =>
    match skipWsJ cs0 with
    | [] => none
    | c :: rest =>
      if c == dq then
        match parseStrAux [] rest with
        | some (s, r) => some (.jstr s, r)
        | none => none
      else if c == obr then
        match skipWsJ rest with
        | c2 :: r2 =>
          if c2 == cbr then some (.jobj [], r2)
          else parseMembers fuel (c2 :: r2) []
        | [] => none
      else if c == '[' then
        match skipWsJ rest with
        | ']' :: r2 => some (.jarr [], r2)
        | r2 => parseElems fuel r2 []
      else if listPrefixB ['t', 'r', 'u', 'e'] (c :: rest) then
        some (.jbool true, (c :: rest).drop 4)
      else if listPrefixB ['f', 'a', 'l', 's', 'e'] (c :: rest) then
        some (.jbool false, (c :: rest).drop 5)
      else if listPrefixB ['n', 'u', 'l', 'l'] (c :: rest) then
        some (.jnull, (c :: rest).drop 4)
      else parseNumLit (c :: rest)

/-- Parse the members of an object after the opening brace. -/
def parseMembers : Nat → List Char → List (String × JVal) →
    Option (JVal × List Char)
  | 0, _, _ => none
  | Nat.succ fuel, cs, acc =>
    match skipWsJ cs with
    | c :: rest =>
      if c == dq then
        match parseStrAux [] rest with
        | some (k, r1) =>
          match skipWsJ r1 with
          | ':' :: r2 =>
            match parseVal fuel r2 with
            | some (v, r3) =>
              match skipWsJ r3 with
              | c4 :: r4 =>
                if c4 == ',' then parseMembers fuel r4 (acc ++ [(k, v)])
                else if c4 == cbr then some (.jobj (acc ++ [(k, v)]), r4)
                else none
              | [] => none
            | none => none
          | _ => none
        | none => none
      else none
    | [] => none

/-- Parse the elements of an array after the opening bracket. -/
def parseElems : Nat → List Char → List JVal → Option (JVal × List Char)
  | 0, _, _ => none
  | Nat.succ fuel, cs, acc =>
    match parseVal fuel cs with
    | some (v, r1) =>
      match skipWsJ r1 with
      | ',' :: r2 => parseElems fuel r2 (acc ++ [v])
      | ']' :: r2 => some (.jarr (acc ++ [v]), r2)
      | _ => none
    | none => none

end

/-- Model of `JSON.parse`: `none` models a thrown `SyntaxError`. -/
def jsonParse (s : String) : Option JVal :=
  match parseVal (s.length + 1) s.toList with
  | some (v, r) => if skipWsJ r = [] then some v else none
  | none => none

/-! ## The failsafe extraction regexes

The handlers recover arguments from call-shaped text with the regexes
name, optional whitespace, an opening parenthesis, a quoted lazy
group and a closing parenthesis (one argument, `read_file` and
`create_ticket`) and
the same shape with two comma-separated quoted groups (two arguments,
`update_memory`).  The functions below model JavaScript `text.match(re)`
for exactly these two patterns: scan start positions left to right, the
lazy groups take the shortest prefix whose continuation completes the
pattern, and `.` does not match a newline. -/

/-- Membership in the regex character class of a single or double quote. -/
def isQuote (c : Char) : Bool :=
  c == dq || c == sq

/-- Match a literal character sequence, returning the remainder. -/
def dropLit : List Char → List Char → Option (List Char)
  | [], cs => some cs
  | _ :: _, [] => none
  | a :: as, b :: bs => if a == b then dropLit as bs else none

/-- Does optional whitespace followed by a closing parenthesis start here? -/
def closeParen1 (rest : List Char) : Bool :=
  match skipWsJ rest with
  | c :: _ => c == ')'
  | [] => false

/-- Lazy capture of one group closed by a quote, whitespace and `)`. -/
def findClose1 : List Char → List Char → Option String
  | _, [] => none
  | acc, c :: rest =>
    if isQuote c && closeParen1 rest then some (String.mk acc.reverse)
    else if c == '\n' then none
    else findClose1 (c :: acc) rest

/-- Match the one-argument pattern at the current position. -/
def matchP1At (name : List Char) (cs : List Char) : Option String :=
  match dropLit name cs with
  | none => none
  | some r1 =>
    match skipWsJ r1 with
    | '(' :: r2 =>
      match skipWsJ r2 with
      | q :: r3 => if isQuote q then findClose1 [] r3 else none
      | [] => none
    | _ => none

/-- Scan start positions for the one-argument pattern. -/
def scanP1 (name : List Char) : List Char → Option String
  | [] => none
  | c :: rest =>
    match matchP1At name (c :: rest) with
    | some cap => some cap
    | none => scanP1 name rest

/-- Model of matching the one-argument call regex against a text,
returning the captured group. -/
def extractCall1 (name text : String) : Option String :=
  scanP1 name.toList text.toList

/-- Step from the closing quote of the first group over the comma and
the next opening quote, with optional whitespace around the comma. -/
def afterComma (rest : List Char) : Option (List Char) :=
  match skipWsJ rest with
  | c1 :: r1 =>
    if c1 == ',' then
      match skipWsJ r1 with
      | q :: r2 => if isQuote q then some r2 else none
      | [] => none
    else none
  | [] => none

/-- Lazy capture of the first of two groups: the group ends at the first
quote from which the rest of the two-argument pattern completes. -/
def findCloseFst : List Char → List Char → Option (String × String)
  | _, [] => none
  | acc, c :: rest =>
    if isQuote c then
      match afterComma rest with
      | some r2 =>
        match findClose1 [] r2 with
        | some cap2 => some (String.mk acc.reverse, cap2)
        | none => findCloseFst (c :: acc) rest
      | none => findCloseFst (c :: acc) rest
    else if c == '\n' then none
    else findCloseFst (c :: acc) rest

/-- Match the two-argument pattern at the current position. -/
def matchP2At (name : List Char) (cs : List Char) : Option (String × String) :=
  match dropLit name cs with
  | none => none
  | some r1 =>
    match skipWsJ r1 with
    | '(' :: r2 =>
      match skipWsJ r2 with
      | q :: r3 => if isQuote q then findCloseFst [] r3 else none
      | [] => none
    | _ => none

/-- Scan start positions for the two-argument pattern. -/
def scanP2 (name : List Char) : List Char → Option (String × String)
  | [] => none
  | c :: rest =>
    match matchP2At name (c :: rest) with
    | some caps => some caps
    | none => scanP2 name rest

/-- Model of the two-argument regex match used for `update_memory`. -/
def extractCall2 (name text : String) : Option (String × String) :=
  scanP2 name.toList text.toList

/-! ## Turns and the Conversation Store

`src/index.js` keeps `CONVERSATIONS`, a map from context key to an
array of turns.  On every message the handler loads the history,
truncates it to the last 20 turns when it is longer (lines 76-78), and
after the model answers it pushes the user turn and the assistant turn
and stores the result back (lines 111-114). -/

/-- One stored message unit. -/
structure Turn where
  role : String
  content : String
deriving Repr, DecidableEq, Inhabited

/-- The load-time truncation
`if (history.length > 20) history = history.slice(history.length - 20)`. -/
def truncateView (h : List Turn) : List Turn :=
  if h.length > 20 then h.drop (h.length - 20) else h

/-- The effect of one `respond` call on the stored history of one context:
truncate the loaded view, then push the user and assistant turns. -/
def respondHistoryUpdate (h : List Turn) (u a : Turn) : List Turn :=
  truncateView h ++ [u, a]

/-- Stored history after a sequence of `respond` calls on one context,
each appending the given user/assistant pair. -/
def runCalls (calls : List (Turn × Turn)) : List Turn :=
  calls.foldl (fun h ua => respondHistoryUpdate h ua.1 ua.2) []

/-- Every turn ever appended to the context, in arrival order. -/
def arrivals (calls : List (Turn × Turn)) : List Turn :=
  calls.foldl (fun acc ua => acc ++ [ua.1, ua.2]) []

/-! ## The brain orchestrator (`src/src/agent/brain.js`)

`thinkAndAct(history, userMessage, systemPrompt)` recalls long-term
memories, sends system prompt + history + user turn to the model with
the tool schema, executes every structured tool call with arguments
from `JSON.parse` (an argument parse failure is caught and replaced by
`{}`), issues a second model call on the extended request, and returns
its text.  Model invocation failures are caught and converted to
`"Brain Error: <message>"`.  The model endpoint and the tool executors
are external collaborators, passed as oracles. -/

/-- A structured tool call as delivered by the model API. -/
structure ToolCall where
  id : String
  name : String
  argumentsStr : String
deriving Repr, DecidableEq, Inhabited

/-- The message object of a model response. -/
structure AssistantMsg where
  content : Option String
  tool_calls : List ToolCall
deriving Repr, DecidableEq, Inhabited

/-- Result of one model invocation; `err` models a thrown exception
(network, timeout, quota) carrying `error.message`. -/
inductive ModelResult where
  | ok (msg : AssistantMsg)
  | err (message : String)
deriving Repr, DecidableEq, Inhabited

/-- One entry of the outbound `messages` array. -/
structure ChatMsg where
  role : String
  content : Option String := none
  tool_calls : List ToolCall := []
  tool_call_id : Option String := none
  name : Option String := none
deriving Repr, DecidableEq, Inhabited

/-- A model oracle: receives the outbound messages and whether the tool
schema is attached, and answers or throws. -/
def ModelOracle : Type :=
  List ChatMsg → Bool → ModelResult

/-- Oracles for the external tool executors imported by the brain.
Each returns the text the executor resolves with; executors catch
their own I/O errors, so they never throw. -/
structure ToolEnv where
  getPullRequests : String
  getIssues : String
  getFileTree : String
  readFileContent : Option JVal → String
  createNewFile : Option JVal → Option JVal → Option JVal → String
  createJiraTask : Option JVal → String
  searchWeb : Option JVal → String
  getPullRequestDiff : Nat → String
  getRecentCommits : JVal → String
  getCommitDiff : Option JVal → String

/-- Digit-string to number, for the `parseInt` in the `review_pr` case. -/
def digitsToNat (ds : List Char) : Nat :=
  ds.foldl (fun a c => a * 10 + (c.toNat - 48)) 0

/-- The `review_pr` unwrapping
the object case of the pr_number normalisation (take the pr_number or
number field, or the first value).  A `null` value would make the source
throw on property access; `null` stays unchanged here and ends in the
same user-visible error text via the digit filter. -/
def unwrapPR : Option JVal → Option JVal
  | some (.jobj fields) =>
    jsOrJ (jget (.jobj fields) "pr_number")
      (jsOrJ (jget (.jobj fields) "number") (fields.head?.map (fun p => p.2)))
  | some (.jarr elems) => elems.head?
  | v => v

/-- The error text of the `review_pr` case for an unparseable number. -/
def prParseErr : String :=
  "Error: Could not parse PR number. Please specify just the number, " ++
    "e.g., \x27review PR 60\x27."

/-- The instruction template wrapped around a PR diff. -/
def prDiffReport (n : Nat) (diff : String) : String :=
  "[CODE DIFF FOR PR #" ++ toString n ++ "]:\n" ++ diff ++
    "\n\nINSTRUCTION: Analyze this code for 1. Bugs, 2. Security Risks " ++
    "(SQLi, XSS, etc), 3. Code Style issues. Be specific and reference " ++
    "file names and line changes."

/-- The tool dispatch switch of `brain.js` (lines 148-182).  An
unrecognised name falls to the default case and returns a report
string instead of throwing. -/
def executeTool (env : ToolEnv) (name : String) (args : JVal) : String :=
  if name = "get_prs" then env.getPullRequests
  else if name = "get_issues" then env.getIssues
  else if name = "get_file_tree" then env.getFileTree
  else if name = "read_file" then env.readFileContent (jget args "path")
  else if name = "create_file" then
    env.createNewFile (jget args "path") (jget args "content")
      (jget args "message")
  else if name = "create_ticket" then env.createJiraTask (jget args "summary")
  else if name = "search_web" then env.searchWeb (jget args "query")
  else if name = "review_pr" then
    let digits := (toJsString (unwrapPR (jget args "pr_number"))).toList.filter
      Char.isDigit
    if digits = [] then prParseErr
    else prDiffReport (digitsToNat digits) (env.getPullRequestDiff (digitsToNat digits))
  else if name = "get_commits" then
    env.getRecentCommits (jsOrJ (jget args "limit") (some (.jnum 5))).get!
  else if name = "get_commit_diff" then env.getCommitDiff (jget args "sha")
  else "Unknown tool: " ++ name

/-- The registered tool names of the `TOOLS_DEF` table of the brain. -/
def brainToolNames : List String :=
  ["get_prs", "get_issues", "get_file_tree", "read_file", "create_file",
    "create_ticket", "search_web", "review_pr", "get_commits",
    "get_commit_diff"]

/-- The memory-recall context string appended to the user message; the
recall oracle returns `none` when recall throws or finds nothing. -/
def recallCtx (recallMemory : String → Option String) (userMessage : String) :
    String :=
  match recallMemory userMessage with
  | none => ""
  | some m =>
    if m = "" then ""
    else
      "\n\n[RELEVANT PAST MEMORIES]:\n" ++ m ++
        "\nUse these memories to answer if needed."

/-- The outbound messages array: system prompt, stored history, then
the new user turn.  The system prompt is injected fresh, never taken
from the store. -/
def brainMessages (systemPrompt : String) (history : List Turn)
    (userContent : String) : List ChatMsg :=
  ({ role := "system", content := some systemPrompt } : ChatMsg) ::
    (history.map (fun t => ({ role := t.role, content := some t.content } : ChatMsg)) ++
      [({ role := "user", content := some userContent } : ChatMsg)])

/-- The first request `thinkAndAct` sends. -/
def brainFirstRequest (recallMemory : String → Option String) (history : List Turn)
    (userMessage systemPrompt : String) : List ChatMsg :=
  brainMessages systemPrompt history (userMessage ++ recallCtx recallMemory userMessage)

/-- Structured-call arguments:
`try { args = JSON.parse(...) } catch (e) { args = {} }`. -/
def parseArgsJs (s : String) : JVal :=
  (jsonParse s).getD (.jobj [])

/-- The tool-result messages appended before the second model call. -/
def toolResultMsgs (env : ToolEnv) (tcs : List ToolCall) : List ChatMsg :=
  tcs.map (fun tc =>
    ({ role := "tool"
       tool_call_id := some tc.id
       name := some tc.name
       content := some (executeTool env tc.name (parseArgsJs tc.argumentsStr)) } : ChatMsg))

/-- The extended request of the final-answer pass. -/
def followUpOf (env : ToolEnv) (messages : List ChatMsg)
    (tcs : List ToolCall) : List ChatMsg :=
  messages ++ ({ role := "assistant", tool_calls := tcs } : ChatMsg) ::
    toolResultMsgs env tcs

/-- The log of tool executions of one orchestration cycle. -/
def execLogOf (tcs : List ToolCall) : List (String × JVal) :=
  tcs.map (fun tc => (tc.name, parseArgsJs tc.argumentsStr))

/-- The reply the second model call yields, with the `|| "Done."`
default; a throw is caught by the surrounding try and reported. -/
def secondCallReply (model : ModelOracle) (followUps : List ChatMsg) : String :=
  match model followUps false with
  | .ok fin => jsOr fin.content "Done."
  | .err e => "Brain Error: " ++ e

/-- Observable outcome of one `thinkAndAct` run: the returned text, the
tools executed with their parsed arguments, and the number of model
invocations issued. -/
structure BrainOutcome where
  finalText : String
  toolExecs : List (String × JVal)
  modelCalls : Nat

/-- The core agent loop `thinkAndAct` (brain.js lines 192-276). -/
def thinkAndAct (env : ToolEnv) (recallMemory : String → Option String)
    (model : ModelOracle) (history : List Turn)
    (userMessage systemPrompt : String) : BrainOutcome :=
  let req := brainFirstRequest recallMemory history userMessage systemPrompt
  match model req true with
  | .err e => ⟨"Brain Error: " ++ e, [], 1⟩
  | .ok rsp =>
    match rsp.tool_calls with
    | [] => ⟨jsOr rsp.content "I\x27m not sure how to respond.", [], 1⟩
    | tc :: rest =>
      ⟨secondCallReply model (followUpOf env req (tc :: rest)),
        execLogOf (tc :: rest), 2⟩

/-! ## The message handler of `src/index.js` (first variant)

The handler loads and truncates the context history, calls
`thinkAndAct`, pushes the user turn and the assistant turn (with the
`|| "Done"` default) and stores the history back.  The vision branch
(image attachments) is not taken for plain text messages and is
outside this embedding. -/

/-- Outcome of the first-variant handler on one context: the reply, the
stored history afterwards, and the delivered messages (after the
`safeSay` empty/whitespace suppression). -/
structure V1Outcome where
  response : String
  storeAfter : List Turn
  said : List String

/-- The `safeSay` delivery filter: empty or whitespace-only text is
dropped, anything else is sent. -/
def safeSayApp (l : List String) (t : String) : List String :=
  if t = "" then l
  else if jsTrim t = "" then l
  else l ++ [t]

/-- The first-variant message handler (index.js lines 62-123) for a
text-only message, acting on the stored history of one context. -/
def indexV1Handle (env : ToolEnv) (recallMemory : String → Option String)
    (model : ModelOracle) (history0 : List Turn)
    (speaker userInput systemPrompt : String) : V1Outcome :=
  let history := truncateView history0
  let response :=
    thinkAndAct env recallMemory model history
      ("(User: " ++ speaker ++ ") " ++ userInput) systemPrompt
  { response := response.finalText
    storeAfter :=
      history ++ [⟨"user", userInput⟩,
        ⟨"assistant", jsOrStr response.finalText "Done"⟩]
    said := safeSayApp [] response.finalText }

/-! ## The Gemini message handler (`src/index.js`, second variant)

This handler calls the model once, dispatches a structured function
call directly to a tool (the raw tool output becomes the reply, with no
second model call), and otherwise runs the text failsafe chain: an
else-if cascade testing `textResponse.includes(name)` in the order
get_file_tree, get_issues, read_file, create_ticket, update_memory,
get_prs, executing at most the first match.  Tools are declared to the
model in the order get_prs, get_issues, get_file_tree, read_file,
create_ticket, update_memory. -/

/-- Strict string-equality test on a possibly-undefined value, as in
the `raw.name` comparisons of the JSON failsafes. -/
def jIsStr (v : Option JVal) (s : String) : Bool :=
  match v with
  | some (.jstr t) => t == s
  | _ => false

/-- A Gemini structured function call: a name and an argument object of
string-valued fields. -/
structure GCall where
  name : String
  args : List (String × String)
deriving Repr, DecidableEq, Inhabited

/-- A Gemini model response: the text part (`none` models `response.text()`
throwing, which the handler converts to `""`) and the first function
call part, if any. -/
structure GResp where
  text : Option String
  functionCall : Option GCall
deriving Repr, DecidableEq, Inhabited

/-- Oracles for the tool implementations of the Gemini variant (also
used for the `part_004` variant, which has the same six tools). -/
structure GToolEnv where
  getPullRequests : String
  getIssues : String
  getFileTree : String
  readFileContent : Option JVal → String
  createJiraTask : Option JVal → String
  updateProjectMemory : Option JVal → Option JVal → String

/-- Observable outcome of the Gemini handler: the `finalReply` variable
at history-push time, the tools executed, and the delivered messages. -/
structure GOutcome where
  finalReply : String
  executed : List String
  said : List String

/-- Lookup of a Gemini argument field, as a JSON value. -/
def gArg (args : List (String × String)) (k : String) : Option JVal :=
  (assocGet k args).map .jstr

/-- The registration order of the `functionDeclarations` array
(index.js lines 369-376). -/
def registrationOrder : List String :=
  ["get_prs", "get_issues", "get_file_tree", "read_file", "create_ticket",
    "update_memory"]

/-- The order in which the failsafe else-if cascade tests fingerprints
(index.js lines 422-461). -/
def chainOrder : List String :=
  ["get_file_tree", "get_issues", "read_file", "create_ticket",
    "update_memory", "get_prs"]

/-- The first fingerprint of the cascade present in a text. -/
def firstFingerprint (t : String) : Option String :=
  chainOrder.find? (fun n => strIncludes t n)

/-- The text failsafe cascade of the Gemini handler, started with the
already-delivered messages. -/
def failsafeChain (env : GToolEnv) (textResponse : String)
    (said0 : List String) : GOutcome :=
  if strIncludes textResponse "get_file_tree" then
    let said1 := safeSayApp said0 "⚠️ (Auto-Fix) Scanning file structure..."
    ⟨env.getFileTree, ["get_file_tree"], safeSayApp said1 env.getFileTree⟩
  else if strIncludes textResponse "get_issues" then
    let said1 := safeSayApp said0 "⚠️ (Auto-Fix) Checking Issues..."
    ⟨env.getIssues, ["get_issues"], safeSayApp said1 env.getIssues⟩
  else if strIncludes textResponse "read_file" then
    match extractCall1 "read_file" textResponse with
    | some p =>
      let said1 := safeSayApp said0 ("⚠️ (Auto-Fix) Reading " ++ p ++ "...")
      let out := env.readFileContent (some (.jstr p))
      ⟨out, ["read_file"], safeSayApp said1 out⟩
    | none => ⟨textResponse, [], safeSayApp said0 textResponse⟩
  else if strIncludes textResponse "create_ticket" then
    match extractCall1 "create_ticket" textResponse with
    | some s =>
      let said1 :=
        safeSayApp said0 ("⚠️ (Auto-Fix) Creating task: \"" ++ s ++ "\"...")
      let out := env.createJiraTask (some (.jstr s))
      ⟨out, ["create_ticket"], safeSayApp said1 out⟩
    | none => ⟨textResponse, [], safeSayApp said0 textResponse⟩
  else if strIncludes textResponse "update_memory" then
    match extractCall2 "update_memory" textResponse with
    | some (k, v) =>
      let said1 := safeSayApp said0 ("⚠️ (Auto-Fix) Updating " ++ k ++ "...")
      let out := env.updateProjectMemory (some (.jstr k)) (some (.jstr v))
      ⟨out, ["update_memory"], safeSayApp said1 out⟩
    | none => ⟨textResponse, [], safeSayApp said0 textResponse⟩
  else if strIncludes textResponse "get_prs" then
    let said1 := safeSayApp said0 "⚠️ (Auto-Fix) Checking GitHub..."
    ⟨env.getPullRequests, ["get_prs"], safeSayApp said1 env.getPullRequests⟩
  else
    ⟨textResponse, [], safeSayApp said0 (jsOrStr textResponse "✅ Done.")⟩

/-- The resolution of one model response by the Gemini handler
(index.js lines 380-468).  The handler issues no further model call in
any branch: the structured branch assigns the raw tool output to
`finalReply` directly. -/
def geminiHandle (env : GToolEnv) (resp : GResp) : GOutcome :=
  let textResponse := resp.text.getD ""
  match resp.functionCall with
  | some call =>
    if call.name = "get_prs" then
      let said1 := safeSayApp [] "👀 Checking PRs..."
      ⟨env.getPullRequests, ["get_prs"], safeSayApp said1 env.getPullRequests⟩
    else if call.name = "get_issues" then
      let said1 := safeSayApp [] "📋 Checking Issue Backlog..."
      ⟨env.getIssues, ["get_issues"], safeSayApp said1 env.getIssues⟩
    else if call.name = "get_file_tree" then
      let said1 := safeSayApp [] "📂 Scanning file structure..."
      ⟨env.getFileTree, ["get_file_tree"], safeSayApp said1 env.getFileTree⟩
    else if call.name = "read_file" then
      let said1 :=
        safeSayApp []
          ("📖 Reading " ++ toJsString (gArg call.args "path") ++ "...")
      let out := env.readFileContent (gArg call.args "path")
      ⟨out, ["read_file"], safeSayApp said1 out⟩
    else if call.name = "create_ticket" then
      let said1 := safeSayApp [] "📝 Creating Ticket..."
      let out := env.createJiraTask (gArg call.args "summary")
      ⟨out, ["create_ticket"], safeSayApp said1 out⟩
    else if call.name = "update_memory" then
      let said1 := safeSayApp [] "💾 Saving..."
      let out :=
        env.updateProjectMemory (gArg call.args "key") (gArg call.args "value")
      ⟨out, ["update_memory"], safeSayApp said1 out⟩
    else
      ⟨textResponse, [], safeSayApp [] textResponse⟩
  | none => failsafeChain env textResponse []

/-! ## The Groq handler of `src/unnamed/part_000`

This variant calls the model directly in the message handler.  The user
turn is pushed right after the first model call; the structured branch
parses the arguments of the first tool call with a bare `JSON.parse` (a
parse failure propagates to the outer catch), executes, and only
`search_web` gets a follow-up model call; a JSON-shaped text reply is
handled by a failsafe recognising only `update_memory` and
`search_web`.  The outer catch only reports `System Error: <message>`
and performs no history append, so the stored history is what the
in-place array mutations left behind: the loaded history aliases the
stored array exactly when the context existed with at most 20 turns. -/

/-- Oracles for the tool implementations of the `part_000` variant. -/
structure P0Env where
  getPullRequests : String
  getIssues : String
  getFileTree : String
  readFileContent : Option JVal → String
  createJiraTask : Option JVal → String
  updateProjectMemory : Option JVal → Option JVal → String
  searchWeb : Option JVal → String

/-- Observable outcome of the `part_000` handler on one context:
delivered messages, executed tools, number of model invocations, and
the stored history afterwards (`none` when the context key is absent). -/
structure P0Outcome where
  said : List String
  executed : List String
  modelCalls : Nat
  storeAfter : Option (List Turn)

/-- Partial outcome of the JSON failsafe block. -/
structure P0Fs where
  finalReply : Option String
  executed : List String
  said : List String

/-- Delivery through `safeSay` of a possibly-null reply. -/
def safeSayAppO (l : List String) (t : Option String) : List String :=
  match t with
  | none => l
  | some s => safeSayApp l s

/-- The argument bag of the JSON failsafes:
`raw.parameters || raw.arguments || raw`. -/
def jsonFsParams (raw : JVal) : JVal :=
  (jsOrJ (jget raw "parameters") (jsOrJ (jget raw "arguments") (some raw))).getD
    .jnull

/-- The JSON failsafe block of `part_000` (lines 304-311): a reply that
is a nonempty string starting with a brace and mentioning a name field
is parsed; only the names `update_memory` and `search_web` are acted
on, every other name (and any parse failure) leaves the reply as it
was. -/
def p0JsonFailsafe (env : P0Env) (finalReply : Option String)
    (said0 : List String) : P0Fs :=
  match finalReply with
  | none => ⟨none, [], said0⟩
  | some fr =>
    if fr = "" then ⟨some "", [], said0⟩
    else if jsStartsWith (jsTrim fr) "\x7b" && strIncludes fr "\"name\":" then
      match jsonParse fr with
      | some raw =>
        let params := jsonFsParams raw
        if jIsStr (jget raw "name") "update_memory" then
          let said1 := safeSayApp said0 "⚠️ (Auto-Fix) Updating Memory..."
          let out :=
            env.updateProjectMemory (jget params "key") (jget params "value")
          ⟨some out, ["update_memory"], safeSayApp said1 out⟩
        else if jIsStr (jget raw "name") "search_web" then
          let said1 := safeSayApp said0 "🌍 (Auto-Fix) Searching..."
          let out := env.searchWeb (jget params "query")
          ⟨some out, ["search_web"], safeSayApp said1 out⟩
        else ⟨some fr, [], said0⟩
      | none => ⟨some fr, [], said0⟩
    else ⟨some fr, [], said0⟩

/-- The tail of a successful `part_000` run: JSON failsafe, the final
`safeSay(finalReply)`, the assistant push, and the store write-back. -/
def p0Finish (env : P0Env) (said : List String) (executed : List String)
    (modelCalls : Nat) (finalReply : Option String) (history : List Turn)
    (userTurn : Turn) : P0Outcome :=
  let fs := p0JsonFailsafe env finalReply said
  { said := safeSayAppO fs.said fs.finalReply
    executed := executed ++ fs.executed
    modelCalls := modelCalls
    storeAfter :=
      some (history ++ [userTurn, ⟨"assistant", jsOr fs.finalReply "Done"⟩]) }

/-- The `part_000` message handler (lines 227-321) for one inbound text
message.  `jsErrMsg` is the engine-specific `SyntaxError` message of a
failed `JSON.parse`; `channel` is the Slack channel identifier. -/
def part000Handle (env : P0Env) (model : ModelOracle)
    (jsErrMsg : String → String) (orig : Option (List Turn))
    (msgText speaker channel sysPrompt : String) : P0Outcome :=
  if strIncludes (jsToLower msgText) "set report channel" then
    let _ :=
      env.updateProjectMemory (some (.jstr "report_channel"))
        (some (.jstr channel))
    { said := safeSayApp [] "✅ Reports set to this channel."
      executed := ["update_memory"], modelCalls := 0, storeAfter := orig }
  else
    let history0 := orig.getD []
    let history := truncateView history0
    let aliased := orig.isSome && decide (history0.length ≤ 20)
    let messages :=
      brainMessages sysPrompt history ("(User: " ++ speaker ++ ") " ++ msgText)
    match model messages true with
    | .err e =>
      { said := safeSayApp [] ("System Error: " ++ e)
        executed := [], modelCalls := 1, storeAfter := orig }
    | .ok rsp =>
      let userTurn : Turn := ⟨"user", msgText⟩
      let catchStore : Option (List Turn) :=
        if aliased then some (history ++ [userTurn]) else orig
      match rsp.tool_calls with
      | [] => p0Finish env [] [] 1 rsp.content history userTurn
      | tc :: _ =>
        match jsonParse tc.argumentsStr with
        | none =>
          { said := safeSayApp [] ("System Error: " ++ jsErrMsg tc.argumentsStr)
            executed := [], modelCalls := 1, storeAfter := catchStore }
        | some args =>
          if tc.name = "search_web" then
            let said1 :=
              safeSayApp []
                ("🌍 Searching: \"" ++ toJsString (jget args "query") ++ "\"...")
            let searchResults := env.searchWeb (jget args "query")
            let fu :=
              messages ++
                ({ role := "assistant", tool_calls := [tc] } : ChatMsg) ::
                  [({ role := "tool"
                      tool_call_id := some tc.id
                      name := some tc.name
                      content := some searchResults } : ChatMsg)]
            match model fu false with
            | .err e =>
              { said := safeSayApp said1 ("System Error: " ++ e)
                executed := ["search_web"], modelCalls := 2
                storeAfter := catchStore }
            | .ok fin =>
              p0Finish env said1 ["search_web"] 2 fin.content history userTurn
          else if tc.name = "get_prs" then
            let said1 := safeSayApp [] "👀 Checking PRs..."
            let out := env.getPullRequests
            p0Finish env (safeSayApp said1 out) ["get_prs"] 1 (some out)
              history userTurn
          else if tc.name = "get_issues" then
            let said1 := safeSayApp [] "📋 Checking Backlog..."
            let out := env.getIssues
            p0Finish env (safeSayApp said1 out) ["get_issues"] 1 (some out)
              history userTurn
          else if tc.name = "get_file_tree" then
            let said1 := safeSayApp [] "📂 Scanning repo..."
            let out := env.getFileTree
            p0Finish env (safeSayApp said1 out) ["get_file_tree"] 1 (some out)
              history userTurn
          else if tc.name = "read_file" then
            let said1 :=
              safeSayApp []
                ("📖 Reading " ++ toJsString (jget args "path") ++ "...")
            let out := env.readFileContent (jget args "path")
            p0Finish env (safeSayApp said1 out) ["read_file"] 1 (some out)
              history userTurn
          else if tc.name = "create_ticket" then
            let said1 := safeSayApp [] "📝 Creating Ticket..."
            let out := env.createJiraTask (jget args "summary")
            p0Finish env (safeSayApp said1 out) ["create_ticket"] 1 (some out)
              history userTurn
          else if tc.name = "update_memory" then
            let said1 := safeSayApp [] "💾 Saving..."
            let out :=
              env.updateProjectMemory (jget args "key") (jget args "value")
            p0Finish env (safeSayApp said1 out) ["update_memory"] 1 (some out)
              history userTurn
          else
            p0Finish env (safeSayAppO [] rsp.content) [] 1 rsp.content
              history userTurn

/-! ## The failsafe section of `src/unnamed/part_004` (lines 335-392)

After the structured branch, a JSON-shaped reply is parsed and only the
names `update_memory` and `create_ticket` are acted on; then the
fingerprint cascade (without an `update_memory` branch) runs on the
possibly-updated reply, each branch guarded by `&& !toolCalls`. -/

/-- Outcome of the `part_004` failsafe section. -/
structure P4Outcome where
  finalReply : Option String
  executed : List String
  said : List String

/-- The `part_004` failsafe section applied to the reply left by the
structured branch. -/
def p4Failsafes (env : GToolEnv) (toolCallsPresent : Bool)
    (finalReply0 : Option String) (said0 : List String) : P4Outcome :=
  match finalReply0 with
  | none => ⟨none, [], said0⟩
  | some fr0 =>
    if fr0 = "" then ⟨some "", [], said0⟩
    else
      let jsonStep : String × List String × List String :=
        if jsStartsWith (jsTrim fr0) "\x7b" && strIncludes fr0 "\"name\":" then
          match jsonParse fr0 with
          | some raw =>
            let params := jsonFsParams raw
            if jIsStr (jget raw "name") "update_memory" then
              let said1 := safeSayApp said0 "⚠️ (Auto-Fix) Updating Memory..."
              let out :=
                env.updateProjectMemory (jget params "key")
                  (jget params "value")
              (out, ["update_memory"], safeSayApp said1 out)
            else if jIsStr (jget raw "name") "create_ticket" then
              let said1 := safeSayApp said0 "⚠️ (Auto-Fix) Creating Ticket..."
              let out := env.createJiraTask (jget params "summary")
              (out, ["create_ticket"], safeSayApp said1 out)
            else (fr0, [], said0)
          | none => (fr0, [], said0)
        else (fr0, [], said0)
      let fr1 := jsonStep.1
      let ex1 := jsonStep.2.1
      let said1 := jsonStep.2.2
      if strIncludes fr1 "get_file_tree" && !toolCallsPresent then
        let said2 := safeSayApp said1 "⚠️ (Auto-Fix) Scanning file structure..."
        ⟨some env.getFileTree, ex1 ++ ["get_file_tree"],
          safeSayApp said2 env.getFileTree⟩
      else if strIncludes fr1 "get_issues" && !toolCallsPresent then
        let said2 := safeSayApp said1 "⚠️ (Auto-Fix) Checking Issues..."
        ⟨some env.getIssues, ex1 ++ ["get_issues"],
          safeSayApp said2 env.getIssues⟩
      else if strIncludes fr1 "read_file" && !toolCallsPresent then
        match extractCall1 "read_file" fr1 with
        | some p =>
          let said2 := safeSayApp said1 ("⚠️ (Auto-Fix) Reading " ++ p ++ "...")
          let out := env.readFileContent (some (.jstr p))
          ⟨some out, ex1 ++ ["read_file"], safeSayApp said2 out⟩
        | none => ⟨some fr1, ex1, safeSayApp said1 fr1⟩
      else if strIncludes fr1 "create_ticket" && !toolCallsPresent then
        match extractCall1 "create_ticket" fr1 with
        | some s =>
          let said2 :=
            safeSayApp said1
              ("⚠️ (Auto-Fix) Creating task: \"" ++ s ++ "\"...")
          let out := env.createJiraTask (some (.jstr s))
          ⟨some out, ex1 ++ ["create_ticket"], safeSayApp said2 out⟩
        | none => ⟨some fr1, ex1, safeSayApp said1 fr1⟩
      else if strIncludes fr1 "get_prs" && !toolCallsPresent then
        let said2 := safeSayApp said1 "⚠️ (Auto-Fix) Checking GitHub..."
        ⟨some env.getPullRequests, ex1 ++ ["get_prs"],
          safeSayApp said2 env.getPullRequests⟩
      else if !toolCallsPresent then
        ⟨some fr1, ex1, safeSayApp said1 fr1⟩
      else ⟨some fr1, ex1, said1⟩

/-! ## The key-value memory (`src/src/utils/memory.js`)

`readMemory` parses `memory.json` and returns `{}` on any failure;
`writeMemory` serialises the whole object back; `get` and `set` work on
the parsed object.  The file state is modelled as the parse result: a
field list, or `none` for a missing or corrupt file.  The
stringify/parse round trip is the identity on this fragment, so
`writeMemory` stores the object itself. -/

/-- The persisted memory file: `none` when missing or unparseable. -/
def MemFile : Type :=
  Option (List (String × JVal))

/-- Model of `readMemory()`: the parsed object, or `{}` on failure. -/
def readMemory (f : MemFile) : List (String × JVal) :=
  f.getD []

/-- JavaScript property assignment `mem[key] = value`: overwrite in
place when the key exists, append otherwise. -/
def jsSetKey (m : List (String × JVal)) (k : String) (v : JVal) :
    List (String × JVal) :=
  if m.any (fun p => p.1 = k) then
    m.map (fun p => if p.1 = k then (k, v) else p)
  else m ++ [(k, v)]

/-- Model of `set(key, value)` on the persisted file state. -/
def memSet (f : MemFile) (k : String) (v : JVal) : MemFile :=
  some (jsSetKey (readMemory f) k v)

/-- Model of `get(key)` on the persisted file state. -/
def memGet (f : MemFile) (k : String) : Option JVal :=
  assocGet k (readMemory f)

/-! ## Claim C1: the conversation store bound -/

/-- The load-time truncation always leaves at most 20 turns. -/
theorem truncateView_length_le (h : List Turn) :
    (truncateView h).length ≤ 20 := by
  unfold truncateView
  split
  · rw [List.length_drop]
    omega
  · omega

/-- The truncated view is a suffix of the stored history. -/
theorem truncateView_isSuffix (h : List Turn) : truncateView h <:+ h := by
  unfold truncateView
  split
  · exact List.drop_suffix _ _
  · exact List.suffix_refl h

/-- Appending the same list on the right preserves the suffix relation. -/
theorem isSuffix_append_right {α : Type} {x A : List α} (t : List α)
    (hs : x <:+ A) : x ++ t <:+ A ++ t := by
  obtain ⟨p, hp⟩ := hs
  exact ⟨p, by rw [← hp, List.append_assoc]⟩

/-- One `respond` call leaves at most 22 stored turns. -/
theorem respondHistoryUpdate_length_le (h : List Turn) (u a : Turn) :
    (respondHistoryUpdate h u a).length ≤ 22 := by
  unfold respondHistoryUpdate
  rw [List.length_append]
  have := truncateView_length_le h
  simp only [List.length_cons, List.length_nil]
  omega

/-- One `respond` call keeps the store a suffix of the arrival stream. -/
theorem respondHistoryUpdate_isSuffix {h A : List Turn} (u a : Turn)
    (hs : h <:+ A) : respondHistoryUpdate h u a <:+ A ++ [u, a] :=
  isSuffix_append_right [u, a] ((truncateView_isSuffix h).trans hs)

/-- Fold invariant: the stored history stays a suffix of the arrivals. -/
theorem runCalls_isSuffix_aux (calls : List (Turn × Turn)) :
    ∀ h A : List Turn, h <:+ A →
      calls.foldl (fun h ua => respondHistoryUpdate h ua.1 ua.2) h <:+
        calls.foldl (fun acc ua => acc ++ [ua.1, ua.2]) A := by
  induction calls with
  | nil => intro h A hs; exact hs
  | cons ua rest ih =>
    intro h A hs
    exact ih _ _ (respondHistoryUpdate_isSuffix ua.1 ua.2 hs)

/-- Fold invariant: the stored history stays at 22 turns or fewer. -/
theorem runCalls_length_aux (calls : List (Turn × Turn)) :
    ∀ h : List Turn, h.length ≤ 22 →
      (calls.foldl (fun h ua => respondHistoryUpdate h ua.1 ua.2) h).length ≤
        22 := by
  induction calls with
  | nil => intro h hl; exact hl
  | cons ua rest ih =>
    intro h hl
    exact ih _ (respondHistoryUpdate_length_le h ua.1 ua.2)

/-- Claim C1, counterexample: after 11 `respond` calls on a fresh context the
store holds 22 turns, not at most 20 — the truncation to 20 happens on
load, before the new user/assistant pair is pushed. -/
theorem C1_store_exceeds_twenty :
    (runCalls
        (List.replicate 11 (⟨"user", "u"⟩, (⟨"assistant", "a"⟩ : Turn)))).length =
        22 ∧
      ¬(runCalls
          (List.replicate 11
            (⟨"user", "u"⟩, (⟨"assistant", "a"⟩ : Turn)))).length ≤ 20 := by
  constructor
  · rfl
  · intro hle
    have h22 :
        (runCalls
            (List.replicate 11
              (⟨"user", "u"⟩, (⟨"assistant", "a"⟩ : Turn)))).length = 22 := rfl
    omega

/-- Claim C1, amended: after every sequence of `respond` calls the store for a
context holds at most 22 turns (the view is truncated to 20 on load and
the call then appends the user/assistant pair), and the stored turns
are a suffix of all appended turns in arrival order; the system prompt
is injected per request and never appears among them. -/
theorem C1_store_bound_and_order (calls : List (Turn × Turn)) :
    (runCalls calls).length ≤ 22 ∧ runCalls calls <:+ arrivals calls := by
  constructor
  · exact runCalls_length_aux calls [] (by simp)
  · exact runCalls_isSuffix_aux calls [] [] (List.suffix_refl [])

/-! ## Claim C10: the memory frame property -/

/-- Replacing the entries of a present key makes its lookup the new value. -/
theorem assocGet_map_set_self (k : String) (v : JVal) :
    ∀ m : List (String × JVal), m.any (fun p => p.1 = k) = true →
      assocGet k (m.map (fun p => if p.1 = k then (k, v) else p)) = some v := by
  intro m
  induction m with
  | nil => intro h; simp at h
  | cons p rest ih =>
    intro hany
    cases p with
    | mk k2 v2 =>
      by_cases hp : k2 = k
      · subst hp
        have hhead :
            (fun p : String × JVal => if p.1 = k2 then (k2, v) else p) (k2, v2) =
              (k2, v) := if_pos rfl
        simp only [List.map_cons, hhead]
        simp [assocGet]
      · simp only [List.any_cons, Bool.or_eq_true] at hany
        simp only [List.map_cons]
        rw [if_neg hp]
        simp only [assocGet, if_neg (fun h : k = k2 => hp h.symm)]
        apply ih
        rcases hany with h1 | h2
        · exact absurd (by simpa using h1) hp
        · exact h2

/-- Appending an entry for an absent key makes its lookup the new value. -/
theorem assocGet_append_single_self (k : String) (v : JVal) :
    ∀ m : List (String × JVal), m.any (fun p => p.1 = k) = false →
      assocGet k (m ++ [(k, v)]) = some v := by
  intro m
  induction m with
  | nil => intro _; simp [assocGet]
  | cons p rest ih =>
    intro hany
    cases p with
    | mk k2 v2 =>
      simp only [List.any_cons, Bool.or_eq_false_iff] at hany
      have h1 : ¬((k2, v2).1 = k) := by simpa using hany.1
      rw [List.cons_append]
      simp only [assocGet, if_neg (fun h : k = k2 => h1 h.symm)]
      exact ih hany.2

/-- Replacing the entries of one key leaves other lookups unchanged. -/
theorem assocGet_map_set_other (k kp : String) (v : JVal) (hne : kp ≠ k) :
    ∀ m : List (String × JVal),
      assocGet kp (m.map (fun p => if p.1 = k then (k, v) else p)) =
        assocGet kp m := by
  intro m
  induction m with
  | nil => simp
  | cons p rest ih =>
    cases p with
    | mk k2 v2 =>
      by_cases hp : k2 = k
      · subst hp
        simp only [List.map_cons, if_pos rfl]
        simp only [assocGet, if_neg hne, if_neg (hne : ¬kp = k2)]
        exact ih
      · simp only [List.map_cons]
        rw [if_neg hp]
        by_cases hq : kp = k2
        · simp [assocGet, hq]
        · simp only [assocGet, if_neg hq]
          exact ih

/-- Appending an entry for one key leaves other lookups unchanged. -/
theorem assocGet_append_single_other (k kp : String) (v : JVal)
    (hne : kp ≠ k) :
    ∀ m : List (String × JVal),
      assocGet kp (m ++ [(k, v)]) = assocGet kp m := by
  intro m
  induction m with
  | nil => simp [assocGet, hne]
  | cons p rest ih =>
    cases p with
    | mk k2 v2 =>
      by_cases hq : kp = k2
      · simp [assocGet, hq]
      · rw [List.cons_append]
        simp only [assocGet, if_neg hq]
        exact ih

/-- Assignment then lookup of the same key yields the new value. -/
theorem assocGet_jsSetKey_self (m : List (String × JVal)) (k : String)
    (v : JVal) : assocGet k (jsSetKey m k v) = some v := by
  unfold jsSetKey
  split
  · rename_i hany
    exact assocGet_map_set_self k v m hany
  · rename_i hany
    exact assocGet_append_single_self k v m (Bool.eq_false_iff.mpr hany)

/-- Assignment leaves the lookup of every other key unchanged. -/
theorem assocGet_jsSetKey_other (m : List (String × JVal)) (k kp : String)
    (v : JVal) (hne : kp ≠ k) :
    assocGet kp (jsSetKey m k v) = assocGet kp m := by
  unfold jsSetKey
  split
  · exact assocGet_map_set_other k kp v hne m
  · exact assocGet_append_single_other k kp v hne m

/-- Claim C10: `memory.set(k, v)` changes only the entry for `k`: a following
`get(k)` returns `v`, and the value of every other key in the persisted
memory object is unchanged, for any prior file state (including a
missing or corrupt file, which reads as the empty object). -/
theorem C10_memory_set_frame (f : MemFile) (k : String) (v : JVal) :
    memGet (memSet f k v) k = some v ∧
      ∀ kp : String, kp ≠ k → memGet (memSet f k v) kp = memGet f kp := by
  constructor
  · unfold memGet memSet
    simp only [readMemory, Option.getD_some]
    exact assocGet_jsSetKey_self _ k v
  · intro kp hne
    unfold memGet memSet
    simp only [readMemory, Option.getD_some]
    exact assocGet_jsSetKey_other _ k kp v hne

/-- Claim C10, witness: a concrete instance of the frame property. -/
theorem C10_memory_set_frame_witness :
    memGet (memSet (some [("a", .jstr "1")]) "b" (.jstr "2")) "b" =
        some (.jstr "2") ∧
      ("a" : String) ≠ "b" ∧
        memGet (memSet (some [("a", .jstr "1")]) "b" (.jstr "2")) "a" =
          memGet (some [("a", .jstr "1")]) "a" :=
  ⟨(C10_memory_set_frame (some [("a", .jstr "1")]) "b" (.jstr "2")).1,
    by decide,
    (C10_memory_set_frame (some [("a", .jstr "1")]) "b" (.jstr "2")).2 "a"
      (by decide)⟩

/-! ## Concrete collaborator instances used by witnesses -/

/-- A concrete Gemini-variant tool environment whose outputs contain no
tool fingerprints. -/
def benignEnv : GToolEnv :=
  { getPullRequests := "PRS-OUT"
    getIssues := "ISSUES-OUT"
    getFileTree := "RAW_OUTPUT"
    readFileContent := fun _ => "FILE-OUT"
    createJiraTask := fun _ => "TICKET-OUT"
    updateProjectMemory := fun _ _ => "MEM-OUT" }

/-- A concrete brain tool environment with fingerprint-free outputs. -/
def brainSampleEnv : ToolEnv :=
  { getPullRequests := "PRS-OUT"
    getIssues := "ISSUES-OUT"
    getFileTree := "TREE-OUT"
    readFileContent := fun _ => "FILE-OUT"
    createNewFile := fun _ _ _ => "NEWFILE-OUT"
    createJiraTask := fun _ => "TICKET-OUT"
    searchWeb := fun _ => "SEARCH-OUT"
    getPullRequestDiff := fun _ => "DIFF-OUT"
    getRecentCommits := fun _ => "COMMITS-OUT"
    getCommitDiff := fun _ => "CDIFF-OUT" }

/-- A concrete `part_000` tool environment with fingerprint-free outputs. -/
def p0SampleEnv : P0Env :=
  { getPullRequests := "PRS-OUT"
    getIssues := "ISSUES-OUT"
    getFileTree := "TREE-OUT"
    readFileContent := fun _ => "FILE-OUT"
    createJiraTask := fun _ => "TICKET-OUT"
    updateProjectMemory := fun _ _ => "MEM-OUT"
    searchWeb := fun _ => "SEARCH-OUT" }

/-- The memory-recall oracle that finds nothing. -/
def noRecall : String → Option String :=
  fun _ => none

/-- A model oracle answering by call kind: `r1` on the tool-schema
request, `r2` on the follow-up request. -/
def constModel (r1 r2 : ModelResult) : ModelOracle :=
  fun _ withTools => if withTools then r1 else r2

/-! ## Claim C3: failsafe priority order -/

/-- Inversion of `firstFingerprint`: which fingerprint was found pins
down the earlier fingerprints of the tested text. -/
theorem firstFingerprint_cases (t n : String)
    (h : firstFingerprint t = some n) :
    (n = "get_file_tree" ∧ strIncludes t "get_file_tree" = true) ∨
      (n = "get_issues" ∧ strIncludes t "get_file_tree" = false ∧
        strIncludes t "get_issues" = true) ∨
      (n = "read_file" ∧ strIncludes t "get_file_tree" = false ∧
        strIncludes t "get_issues" = false ∧
        strIncludes t "read_file" = true) ∨
      (n = "create_ticket" ∧ strIncludes t "get_file_tree" = false ∧
        strIncludes t "get_issues" = false ∧
        strIncludes t "read_file" = false ∧
        strIncludes t "create_ticket" = true) ∨
      (n = "update_memory" ∧ strIncludes t "get_file_tree" = false ∧
        strIncludes t "get_issues" = false ∧
        strIncludes t "read_file" = false ∧
        strIncludes t "create_ticket" = false ∧
        strIncludes t "update_memory" = true) ∨
      (n = "get_prs" ∧ strIncludes t "get_file_tree" = false ∧
        strIncludes t "get_issues" = false ∧
        strIncludes t "read_file" = false ∧
        strIncludes t "create_ticket" = false ∧
        strIncludes t "update_memory" = false ∧
        strIncludes t "get_prs" = true) := by
  by_cases h1 : strIncludes t "get_file_tree" = true
  · left
    have hn : "get_file_tree" = n := by
      simpa [firstFingerprint, chainOrder, List.find?, h1] using h
    exact ⟨hn.symm, h1⟩
  · have h1f := Bool.eq_false_iff.mpr h1
    by_cases h2 : strIncludes t "get_issues" = true
    · right; left
      have hn : "get_issues" = n := by
        simpa [firstFingerprint, chainOrder, List.find?, h1f, h2] using h
      exact ⟨hn.symm, h1f, h2⟩
    · have h2f := Bool.eq_false_iff.mpr h2
      by_cases h3 : strIncludes t "read_file" = true
      · right; right; left
        have hn : "read_file" = n := by
          simpa [firstFingerprint, chainOrder, List.find?, h1f, h2f, h3] using h
        exact ⟨hn.symm, h1f, h2f, h3⟩
      · have h3f := Bool.eq_false_iff.mpr h3
        by_cases h4 : strIncludes t "create_ticket" = true
        · right; right; right; left
          have hn : "create_ticket" = n := by
            simpa [firstFingerprint, chainOrder, List.find?, h1f, h2f, h3f,
              h4] using h
          exact ⟨hn.symm, h1f, h2f, h3f, h4⟩
        · have h4f := Bool.eq_false_iff.mpr h4
          by_cases h5 : strIncludes t "update_memory" = true
          · right; right; right; right; left
            have hn : "update_memory" = n := by
              simpa [firstFingerprint, chainOrder, List.find?, h1f, h2f, h3f,
                h4f, h5] using h
            exact ⟨hn.symm, h1f, h2f, h3f, h4f, h5⟩
          · have h5f := Bool.eq_false_iff.mpr h5
            by_cases h6 : strIncludes t "get_prs" = true
            · right; right; right; right; right
              have hn : "get_prs" = n := by
                simpa [firstFingerprint, chainOrder, List.find?, h1f, h2f,
                  h3f, h4f, h5f, h6] using h
              exact ⟨hn.symm, h1f, h2f, h3f, h4f, h5f, h6⟩
            · have h6f := Bool.eq_false_iff.mpr h6
              exact absurd h
                (by simp [firstFingerprint, chainOrder, List.find?, h1f, h2f,
                  h3f, h4f, h5f, h6f])

/-- Claim C3, amended: the failsafe cascade executes at most one tool, and
when it executes one it is the first match of the fixed cascade order
get_file_tree, get_issues, read_file, create_ticket, update_memory,
get_prs — a deterministic priority, but not the order in which the
tools were registered. -/
theorem C3_chain_first_match (env : GToolEnv) (t : String) :
    (failsafeChain env t []).executed = [] ∨
      ∃ n, (failsafeChain env t []).executed = [n] ∧
        firstFingerprint t = some n := by
  by_cases h1 : strIncludes t "get_file_tree" = true
  · right
    exact ⟨"get_file_tree", by simp [failsafeChain, h1],
      by simp [firstFingerprint, chainOrder, List.find?, h1]⟩
  · have h1f := Bool.eq_false_iff.mpr h1
    by_cases h2 : strIncludes t "get_issues" = true
    · right
      exact ⟨"get_issues", by simp [failsafeChain, h1f, h2],
        by simp [firstFingerprint, chainOrder, List.find?, h1f, h2]⟩
    · have h2f := Bool.eq_false_iff.mpr h2
      by_cases h3 : strIncludes t "read_file" = true
      · cases hm : extractCall1 "read_file" t with
        | some p =>
          right
          exact ⟨"read_file", by simp [failsafeChain, h1f, h2f, h3, hm],
            by simp [firstFingerprint, chainOrder, List.find?, h1f, h2f, h3]⟩
        | none =>
          left
          simp [failsafeChain, h1f, h2f, h3, hm]
      · have h3f := Bool.eq_false_iff.mpr h3
        by_cases h4 : strIncludes t "create_ticket" = true
        · cases hm : extractCall1 "create_ticket" t with
          | some s =>
            right
            exact ⟨"create_ticket",
              by simp [failsafeChain, h1f, h2f, h3f, h4, hm],
              by simp [firstFingerprint, chainOrder, List.find?, h1f, h2f,
                h3f, h4]⟩
          | none =>
            left
            simp [failsafeChain, h1f, h2f, h3f, h4, hm]
        · have h4f := Bool.eq_false_iff.mpr h4
          by_cases h5 : strIncludes t "update_memory" = true
          · cases hm : extractCall2 "update_memory" t with
            | some kv =>
              right
              exact ⟨"update_memory",
                by simp [failsafeChain, h1f, h2f, h3f, h4f, h5, hm],
                by simp [firstFingerprint, chainOrder, List.find?, h1f, h2f,
                  h3f, h4f, h5]⟩
            | none =>
              left
              simp [failsafeChain, h1f, h2f, h3f, h4f, h5, hm]
          · have h5f := Bool.eq_false_iff.mpr h5
            by_cases h6 : strIncludes t "get_prs" = true
            · right
              exact ⟨"get_prs",
                by simp [failsafeChain, h1f, h2f, h3f, h4f, h5f, h6],
                by simp [firstFingerprint, chainOrder, List.find?, h1f, h2f,
                  h3f, h4f, h5f, h6]⟩
            · have h6f := Bool.eq_false_iff.mpr h6
              left
              simp [failsafeChain, h1f, h2f, h3f, h4f, h5f, h6f]

/-- Claim C3, counterexample: a text carrying both the get_prs and the
get_file_tree fingerprints.  get_prs is registered first, yet the
cascade executes get_file_tree — the tested order is not the
registration order. -/
theorem C3_registration_order_violated :
    strIncludes "get_prs() get_file_tree()" "get_prs" = true ∧
      strIncludes "get_prs() get_file_tree()" "get_file_tree" = true ∧
      List.indexOf "get_prs" registrationOrder <
        List.indexOf "get_file_tree" registrationOrder ∧
      (failsafeChain benignEnv "get_prs() get_file_tree()" []).executed =
        ["get_file_tree"] := by
  refine ⟨by decide, by decide, by decide, rfl⟩

/-! ## Claim C6: failed argument extraction -/

/-- Extraction-failure test for the argument-taking failsafe tools. -/
def extractFailsB (name t : String) : Bool :=
  if name = "read_file" then (extractCall1 "read_file" t).isNone
  else if name = "create_ticket" then (extractCall1 "create_ticket" t).isNone
  else (extractCall2 "update_memory" t).isNone

/-- Claim C6: when the first matching fingerprint belongs to an
argument-taking tool and the quoted-argument extraction fails, the
cascade executes no tool and leaves the original model text as the
reply. -/
theorem C6_failed_extraction_keeps_text (env : GToolEnv) (t name : String)
    (hmem : name ∈ ["read_file", "create_ticket", "update_memory"])
    (hfirst : firstFingerprint t = some name)
    (hfail : extractFailsB name t = true) :
    (failsafeChain env t []).executed = [] ∧
      (failsafeChain env t []).finalReply = t := by
  rcases firstFingerprint_cases t name hfirst with
    ⟨hn, _⟩ | ⟨hn, h1f, _⟩ | ⟨hn, h1f, h2f, h3⟩ | ⟨hn, h1f, h2f, h3f, h4⟩ |
    ⟨hn, h1f, h2f, h3f, h4f, h5⟩ | ⟨hn, _⟩
  · subst hn; simp at hmem
  · subst hn; simp at hmem
  · subst hn
    have hfail2 : extractCall1 "read_file" t = none := by
      simp only [extractFailsB, if_pos rfl] at hfail
      exact Option.isNone_iff_eq_none.mp hfail
    constructor <;> simp [failsafeChain, h1f, h2f, h3, hfail2]
  · subst hn
    have hfail2 : extractCall1 "create_ticket" t = none := by
      simp only [extractFailsB] at hfail
      exact Option.isNone_iff_eq_none.mp (by simpa using hfail)
    constructor <;> simp [failsafeChain, h1f, h2f, h3f, h4, hfail2]
  · subst hn
    have hfail2 : extractCall2 "update_memory" t = none := by
      simp only [extractFailsB] at hfail
      exact Option.isNone_iff_eq_none.mp (by simpa using hfail)
    constructor <;> simp [failsafeChain, h1f, h2f, h3f, h4f, h5, hfail2]
  · subst hn; simp at hmem

/-- Claim C6, witness: a create_ticket fingerprint without quoted arguments
is not executed and the text is returned unchanged. -/
theorem C6_failed_extraction_keeps_text_witness :
    ("create_ticket" ∈ ["read_file", "create_ticket", "update_memory"]) ∧
      firstFingerprint "please create_ticket now" = some "create_ticket" ∧
      extractFailsB "create_ticket" "please create_ticket now" = true ∧
      (failsafeChain benignEnv "please create_ticket now" []).executed = [] ∧
      (failsafeChain benignEnv "please create_ticket now" []).finalReply =
        "please create_ticket now" := by
  refine ⟨by decide, by decide, by decide, ?_⟩
  exact C6_failed_extraction_keeps_text benignEnv "please create_ticket now"
    "create_ticket" (by decide) (by decide) (by decide)

/-! ## Claim C9: unknown tool names -/

/-- Claim C9, amended: a structured call naming an unregistered tool yields
the report string `Unknown tool: <name>` without crashing, and the
failsafe cascade matches nothing when the text contains no registered
registered name as a substring — but the recognisers are substring tests,
so this is the only sense in which an unknown name is "no match". -/
theorem C9_unknown_tool_handling (env : ToolEnv) (genv : GToolEnv)
    (name : String) (args : JVal) (t : String)
    (hname : name ∉ brainToolNames)
    (hnofp : ∀ n ∈ chainOrder, strIncludes t n = false) :
    executeTool env name args = "Unknown tool: " ++ name ∧
      (failsafeChain genv t []).executed = [] ∧
      (failsafeChain genv t []).finalReply = t := by
  simp only [brainToolNames, List.mem_cons, List.not_mem_nil, or_false,
    not_or] at hname
  obtain ⟨n1, n2, n3, n4, n5, n6, n7, n8, n9, n10⟩ := hname
  refine ⟨?_, ?_, ?_⟩
  · simp [executeTool, n1, n2, n3, n4, n5, n6, n7, n8, n9, n10]
  · have h1 := hnofp "get_file_tree" (by simp [chainOrder])
    have h2 := hnofp "get_issues" (by simp [chainOrder])
    have h3 := hnofp "read_file" (by simp [chainOrder])
    have h4 := hnofp "create_ticket" (by simp [chainOrder])
    have h5 := hnofp "update_memory" (by simp [chainOrder])
    have h6 := hnofp "get_prs" (by simp [chainOrder])
    simp [failsafeChain, h1, h2, h3, h4, h5, h6]
  · have h1 := hnofp "get_file_tree" (by simp [chainOrder])
    have h2 := hnofp "get_issues" (by simp [chainOrder])
    have h3 := hnofp "read_file" (by simp [chainOrder])
    have h4 := hnofp "create_ticket" (by simp [chainOrder])
    have h5 := hnofp "update_memory" (by simp [chainOrder])
    have h6 := hnofp "get_prs" (by simp [chainOrder])
    simp [failsafeChain, h1, h2, h3, h4, h5, h6]

/-- Claim C9, witness: an unknown structured name reports itself and a
fingerprint-free text matches nothing. -/
theorem C9_unknown_tool_handling_witness :
    ("delete_repo" ∉ brainToolNames) ∧
      (∀ n ∈ chainOrder, strIncludes "hello there" n = false) ∧
      executeTool brainSampleEnv "delete_repo" (.jobj []) =
        "Unknown tool: delete_repo" ∧
      (failsafeChain benignEnv "hello there" []).executed = [] ∧
      (failsafeChain benignEnv "hello there" []).finalReply = "hello there" := by
  refine ⟨by decide, by decide, ?_, ?_, ?_⟩
  · exact (C9_unknown_tool_handling brainSampleEnv benignEnv "delete_repo"
      (.jobj []) "hello there" (by decide) (by decide)).1
  · exact (C9_unknown_tool_handling brainSampleEnv benignEnv "delete_repo"
      (.jobj []) "hello there" (by decide) (by decide)).2.1
  · exact (C9_unknown_tool_handling brainSampleEnv benignEnv "delete_repo"
      (.jobj []) "hello there" (by decide) (by decide)).2.2

/-- Claim C9, counterexample: `get_issues_backlog` is registered nowhere, yet
a text invoking it fires the get_issues recogniser, because the
fingerprints are substring tests — an unknown name is not always
treated as "no match". -/
theorem C9_unknown_name_still_matches :
    ("get_issues_backlog" ∉ brainToolNames) ∧
      ("get_issues_backlog" ∉ registrationOrder) ∧
      (failsafeChain benignEnv "Please run get_issues_backlog()" []).executed =
        ["get_issues"] := by
  refine ⟨by decide, by decide, rfl⟩

/-! ## Claim C2, counterexample side: the Gemini structured branch -/

/-- Claim C2, counterexample: in the Gemini handler a structured
get_file_tree call makes `finalReply` the raw tool output
`"RAW_OUTPUT"`; the handler issues no second model invocation in any
branch (it consumes a single model response), so the structured branch
does not re-summarise. -/
theorem C2_structured_branch_returns_raw :
    benignEnv.getFileTree = "RAW_OUTPUT" ∧
      (geminiHandle benignEnv
          ⟨some "Fetching the tree", some ⟨"get_file_tree", []⟩⟩).finalReply =
        "RAW_OUTPUT" ∧
      (geminiHandle benignEnv
          ⟨some "Fetching the tree", some ⟨"get_file_tree", []⟩⟩).executed =
        ["get_file_tree"] := by
  refine ⟨rfl, rfl, rfl⟩

/-! ## Claim C8, counterexample side: whitespace-only replies -/

/-- Claim C8, counterexample: a whitespace-only model text is neither
replaced by a default acknowledgement nor delivered — `safeSay`
suppresses it and the bare space is pushed to history. -/
theorem C8_whitespace_suppressed_not_replaced :
    (geminiHandle benignEnv ⟨some " ", none⟩).said = [] ∧
      (geminiHandle benignEnv ⟨some " ", none⟩).finalReply = " " := by
  constructor <;> rfl

/-! ## Claim C2: re-summarisation asymmetry -/

/-- Claim C2, amended: in the brain orchestrator a structured tool call leads
to a second model invocation whose reply (with the `|| "Done."`
default) becomes the returned text; in the Gemini-handler variant — the
one housing the failsafe layer — no branch issues a second model call,
and the raw output of a failsafe-triggered tool becomes `finalReply`
exactly. -/
theorem C2_resummarize_per_variant (env : ToolEnv)
    (recallMemory : String → Option String) (model : ModelOracle)
    (history : List Turn) (u sp : String) (rsp : AssistantMsg)
    (tc : ToolCall) (rest : List ToolCall) (genv : GToolEnv) (t s : String)
    (hok : model (brainFirstRequest recallMemory history u sp) true = .ok rsp)
    (htc : rsp.tool_calls = tc :: rest)
    (hfirst : firstFingerprint t = some "create_ticket")
    (hextract : extractCall1 "create_ticket" t = some s) :
    (thinkAndAct env recallMemory model history u sp).modelCalls = 2 ∧
      (thinkAndAct env recallMemory model history u sp).finalText =
        secondCallReply model
          (followUpOf env (brainFirstRequest recallMemory history u sp)
            (tc :: rest)) ∧
      (failsafeChain genv t []).finalReply =
        genv.createJiraTask (some (.jstr s)) ∧
      (failsafeChain genv t []).executed = ["create_ticket"] := by
  have hbrain :
      thinkAndAct env recallMemory model history u sp =
        ⟨secondCallReply model
            (followUpOf env (brainFirstRequest recallMemory history u sp)
              (tc :: rest)),
          execLogOf (tc :: rest), 2⟩ := by
    simp only [thinkAndAct, hok, htc]
  rcases firstFingerprint_cases t "create_ticket" hfirst with
    ⟨hn, _⟩ | ⟨hn, _⟩ | ⟨hn, _⟩ | ⟨_, h1f, h2f, h3f, h4⟩ | ⟨hn, _⟩ | ⟨hn, _⟩
  · exact absurd hn (by decide)
  · exact absurd hn (by decide)
  · exact absurd hn (by decide)
  · refine ⟨by rw [hbrain], by rw [hbrain], ?_, ?_⟩ <;>
      simp [failsafeChain, h1f, h2f, h3f, h4, hextract]
  · exact absurd hn (by decide)
  · exact absurd hn (by decide)

/-- The model oracle of the C2 witness: a structured get_issues call,
then a summarising final answer. -/
def c2Model : ModelOracle :=
  constModel (.ok ⟨some "calling tool", [⟨"1", "get_issues", "\x7b\x7d"⟩]⟩)
    (.ok ⟨some "Looks clear!", []⟩)

/-- Claim C2, witness: a concrete instance of the asymmetry. -/
theorem C2_resummarize_per_variant_witness :
    c2Model (brainFirstRequest noRecall [] "u" "sp") true =
        .ok ⟨some "calling tool", [⟨"1", "get_issues", "\x7b\x7d"⟩]⟩ ∧
      firstFingerprint "create_ticket(\"Fix login bug\")" =
        some "create_ticket" ∧
      extractCall1 "create_ticket" "create_ticket(\"Fix login bug\")" =
        some "Fix login bug" ∧
      (thinkAndAct brainSampleEnv noRecall c2Model [] "u" "sp").modelCalls =
        2 ∧
      (thinkAndAct brainSampleEnv noRecall c2Model [] "u" "sp").finalText =
        secondCallReply c2Model
          (followUpOf brainSampleEnv (brainFirstRequest noRecall [] "u" "sp")
            (⟨"1", "get_issues", "\x7b\x7d"⟩ :: [])) ∧
      (failsafeChain benignEnv "create_ticket(\"Fix login bug\")" []).finalReply =
        benignEnv.createJiraTask (some (.jstr "Fix login bug")) ∧
      (failsafeChain benignEnv "create_ticket(\"Fix login bug\")" []).executed =
        ["create_ticket"] := by
  have h := C2_resummarize_per_variant brainSampleEnv noRecall c2Model []
    "u" "sp" ⟨some "calling tool", [⟨"1", "get_issues", "\x7b\x7d"⟩]⟩
    ⟨"1", "get_issues", "\x7b\x7d"⟩ [] benignEnv
    "create_ticket(\"Fix login bug\")" "Fix login bug" rfl rfl (by decide)
    (by decide)
  exact ⟨rfl, by decide, by decide, h.1, h.2.1, h.2.2.1, h.2.2.2⟩

/-! ## Claim C4: model failure isolation -/

/-- Appending to a nonempty literal never yields the empty string. -/
theorem append_lit_ne_empty (a b : String) (ha : a.length ≠ 0) :
    a ++ b ≠ "" := by
  intro hc
  have hlen := congrArg String.length hc
  rw [String.length_append] at hlen
  simp at hlen
  omega

/-- The `|| default` guard never returns the empty string when the
default is nonempty. -/
theorem jsOr_ne_empty (x : Option String) (d : String) (hd : d ≠ "") :
    jsOr x d ≠ "" := by
  cases x with
  | none => exact hd
  | some t =>
    by_cases ht : t = ""
    · simp [jsOr, ht]
      exact hd
    · simp [jsOr, ht]

/-- Claim C4, amended: when the first model invocation throws, the brain
orchestrator (used by the first index.js handler) never lets the
exception escape, returns the deterministic report
`"Brain Error: <message>"`, and the store still gains exactly the
user/assistant pair; the `part_000` handler variant instead returns
`"System Error: <message>"` and appends nothing (see the
counterexample). -/
theorem C4_model_failure_isolated (env : ToolEnv)
    (recallMemory : String → Option String) (model : ModelOracle)
    (history0 : List Turn) (speaker txt sp e : String)
    (herr : model
        (brainFirstRequest recallMemory (truncateView history0)
          ("(User: " ++ speaker ++ ") " ++ txt) sp) true = .err e) :
    (indexV1Handle env recallMemory model history0 speaker txt sp).response =
        "Brain Error: " ++ e ∧
      (indexV1Handle env recallMemory model history0 speaker txt
            sp).storeAfter =
        truncateView history0 ++
          [⟨"user", txt⟩, ⟨"assistant", "Brain Error: " ++ e⟩] := by
  have hta :
      thinkAndAct env recallMemory model (truncateView history0)
          ("(User: " ++ speaker ++ ") " ++ txt) sp =
        ⟨"Brain Error: " ++ e, [], 1⟩ := by
    simp only [thinkAndAct, herr]
  have hne : "Brain Error: " ++ e ≠ "" :=
    append_lit_ne_empty "Brain Error: " e (by decide)
  constructor
  · simp only [indexV1Handle, hta]
  · simp only [indexV1Handle, hta, jsOrStr, if_neg hne]

/-- Claim C4, witness: a concrete model failure through the brain handler. -/
theorem C4_model_failure_isolated_witness :
    constModel (.err "boom") (.err "boom")
        (brainFirstRequest noRecall (truncateView [⟨"user", "old"⟩])
          ("(User: " ++ "Mo" ++ ") " ++ "hi") "SYS") true = .err "boom" ∧
      (indexV1Handle brainSampleEnv noRecall
          (constModel (.err "boom") (.err "boom")) [⟨"user", "old"⟩] "Mo" "hi"
          "SYS").response = "Brain Error: " ++ "boom" ∧
      (indexV1Handle brainSampleEnv noRecall
          (constModel (.err "boom") (.err "boom")) [⟨"user", "old"⟩] "Mo" "hi"
          "SYS").storeAfter =
        truncateView [⟨"user", "old"⟩] ++
          [⟨"user", "hi"⟩, ⟨"assistant", "Brain Error: " ++ "boom"⟩] := by
  have h := C4_model_failure_isolated brainSampleEnv noRecall
    (constModel (.err "boom") (.err "boom")) [⟨"user", "old"⟩] "Mo" "hi" "SYS"
    "boom" rfl
  exact ⟨rfl, h.1, h.2⟩

/-- Claim C4, counterexample: in the `part_000` handler a first-call model
failure yields `System Error: boom` but appends nothing to the store —
it does not gain a user and an assistant turn. -/
theorem C4_part000_drops_history_on_model_error :
    (part000Handle p0SampleEnv (constModel (.err "boom") (.err "boom"))
        (fun _ => "parse") (some [⟨"user", "hi"⟩]) "hello" "Mo" "C1"
        "SYS").said = ["System Error: boom"] ∧
      (part000Handle p0SampleEnv (constModel (.err "boom") (.err "boom"))
          (fun _ => "parse") (some [⟨"user", "hi"⟩]) "hello" "Mo" "C1"
          "SYS").storeAfter = some [⟨"user", "hi"⟩] ∧
      (part000Handle p0SampleEnv (constModel (.err "boom") (.err "boom"))
          (fun _ => "parse") (some [⟨"user", "hi"⟩]) "hello" "Mo" "C1"
          "SYS").executed = [] ∧
      (part000Handle p0SampleEnv (constModel (.err "boom") (.err "boom"))
          (fun _ => "parse") (some [⟨"user", "hi"⟩]) "hello" "Mo" "C1"
          "SYS").modelCalls = 1 := by
  refine ⟨rfl, rfl, rfl, rfl⟩

/-! ## Claim C7: malformed structured-call arguments -/

/-- Claim C7, amended: a structured call whose argument payload fails to
parse is still executed by the brain orchestrator, with `{}` as the
argument object, and the cycle proceeds to the second model call; in
the `part_000` handler the bare `JSON.parse` throws instead, the outer
catch reports `System Error: <message>`, and no tool is executed — in
neither variant is the accompanying model text returned. -/
theorem C7_malformed_args_divergent (env : ToolEnv)
    (recallMemory : String → Option String) (model : ModelOracle)
    (history : List Turn) (u sp : String) (rsp : AssistantMsg)
    (i n astr : String) (env0 : P0Env) (model0 : ModelOracle)
    (jsErrMsg : String → String) (orig : Option (List Turn))
    (msg speaker channel sp0 : String) (rsp0 : AssistantMsg) (tc0 : ToolCall)
    (rest0 : List ToolCall)
    (hok : model (brainFirstRequest recallMemory history u sp) true = .ok rsp)
    (htc : rsp.tool_calls = [⟨i, n, astr⟩])
    (hbad : jsonParse astr = none)
    (hnocmd : strIncludes (jsToLower msg) "set report channel" = false)
    (hok0 : model0
        (brainMessages sp0 (truncateView (orig.getD []))
          ("(User: " ++ speaker ++ ") " ++ msg)) true = .ok rsp0)
    (htc0 : rsp0.tool_calls = tc0 :: rest0)
    (hbad0 : jsonParse tc0.argumentsStr = none) :
    (thinkAndAct env recallMemory model history u sp).toolExecs =
        [(n, .jobj [])] ∧
      (thinkAndAct env recallMemory model history u sp).modelCalls = 2 ∧
      (part000Handle env0 model0 jsErrMsg orig msg speaker channel
            sp0).executed = [] ∧
      (part000Handle env0 model0 jsErrMsg orig msg speaker channel
            sp0).modelCalls = 1 ∧
      (part000Handle env0 model0 jsErrMsg orig msg speaker channel sp0).said =
        safeSayApp [] ("System Error: " ++ jsErrMsg tc0.argumentsStr) := by
  refine ⟨?_, ?_, ?_, ?_, ?_⟩
  · simp [thinkAndAct, hok, htc, execLogOf, parseArgsJs, hbad]
  · simp [thinkAndAct, hok, htc]
  · simp [part000Handle, hnocmd, hok0, htc0, hbad0]
  · simp [part000Handle, hnocmd, hok0, htc0, hbad0]
  · simp [part000Handle, hnocmd, hok0, htc0, hbad0]

/-- Claim C7, witness: concrete malformed argument payloads in both
variants. -/
theorem C7_malformed_args_divergent_witness :
    jsonParse "\x7bbad" = none ∧
      (thinkAndAct brainSampleEnv noRecall
          (constModel (.ok ⟨some "txt", [⟨"1", "get_issues", "\x7bbad"⟩]⟩)
            (.ok ⟨some "fin", []⟩)) [] "hi" "SYS").toolExecs =
        [("get_issues", .jobj [])] ∧
      (part000Handle p0SampleEnv
          (constModel (.ok ⟨some "t0", [⟨"2", "create_ticket", "nope"⟩]⟩)
            (.ok ⟨some "fin", []⟩)) (fun _ => "Unexpected token") none "hello"
          "Mo" "C1" "SYS").executed = [] ∧
      (part000Handle p0SampleEnv
          (constModel (.ok ⟨some "t0", [⟨"2", "create_ticket", "nope"⟩]⟩)
            (.ok ⟨some "fin", []⟩)) (fun _ => "Unexpected token") none "hello"
          "Mo" "C1" "SYS").said =
        safeSayApp [] ("System Error: " ++ "Unexpected token") := by
  have h := C7_malformed_args_divergent brainSampleEnv noRecall
    (constModel (.ok ⟨some "txt", [⟨"1", "get_issues", "\x7bbad"⟩]⟩)
      (.ok ⟨some "fin", []⟩)) [] "hi" "SYS"
    ⟨some "txt", [⟨"1", "get_issues", "\x7bbad"⟩]⟩ "1" "get_issues" "\x7bbad"
    p0SampleEnv
    (constModel (.ok ⟨some "t0", [⟨"2", "create_ticket", "nope"⟩]⟩)
      (.ok ⟨some "fin", []⟩)) (fun _ => "Unexpected token") none "hello" "Mo"
    "C1" "SYS" ⟨some "t0", [⟨"2", "create_ticket", "nope"⟩]⟩
    ⟨"2", "create_ticket", "nope"⟩ [] rfl rfl rfl (by decide) rfl rfl rfl
  exact ⟨rfl, h.1, h.2.2.1, h.2.2.2.2⟩

/-- Claim C7, counterexample: the brain orchestrator executes get_issues even
though its argument payload `"not json"` fails to parse — the claimed
"the tool is not executed" is violated, and `finalText` is the second
model reply rather than the accompanying text. -/
theorem C7_malformed_args_still_executes :
    jsonParse "not json" = none ∧
      (thinkAndAct brainSampleEnv noRecall
          (constModel
            (.ok ⟨some "accompanying", [⟨"1", "get_issues", "not json"⟩]⟩)
            (.ok ⟨some "summary text", []⟩)) [] "hi" "SYS").toolExecs =
        [("get_issues", .jobj [])] ∧
      (thinkAndAct brainSampleEnv noRecall
          (constModel
            (.ok ⟨some "accompanying", [⟨"1", "get_issues", "not json"⟩]⟩)
            (.ok ⟨some "summary text", []⟩)) [] "hi" "SYS").finalText =
        "summary text" := by
  refine ⟨rfl, rfl, rfl⟩

/-! ## Claim C5: the JSON failsafe path -/

/-- A value equal to one string literal is not equal to another. -/
theorem jIsStr_unique (v : Option JVal) (a b : String)
    (ha : jIsStr v a = true) (hne : a ≠ b) : jIsStr v b = false := by
  cases v with
  | none => simp [jIsStr] at ha
  | some w =>
    cases w with
    | jstr u =>
      simp only [jIsStr, beq_iff_eq] at ha ⊢
      subst ha
      simp [hne]
    | jnull => simp [jIsStr] at ha
    | jbool b2 => simp [jIsStr] at ha
    | jnum n2 => simp [jIsStr] at ha
    | jarr l2 => simp [jIsStr] at ha
    | jobj f2 => simp [jIsStr] at ha

/-- Claim C5, amended: the JSON failsafe path only covers a fixed pair of
names per variant.  In `part_004` a JSON-shaped text naming
create_ticket is executed through the JSON block (arguments from
`parameters`/`arguments`/the whole object) before the fingerprint
cascade; in `part_000` the JSON block recognises only update_memory and
search_web, so the same create_ticket payload — the very example of the
specification — is left untouched there. -/
theorem C5_json_failsafe_name_coverage (env4 : GToolEnv) (env0 : P0Env)
    (t : String) (raw : JVal) (said0 : List String)
    (hne : t ≠ "")
    (hstart : jsStartsWith (jsTrim t) "\x7b" = true)
    (hincl : strIncludes t "\"name\":" = true)
    (hparse : jsonParse t = some raw)
    (hct : jIsStr (jget raw "name") "create_ticket" = true)
    (hbenign : ∀ n ∈ chainOrder,
      strIncludes (env4.createJiraTask (jget (jsonFsParams raw) "summary")) n =
        false) :
    (p4Failsafes env4 false (some t) []).executed = ["create_ticket"] ∧
      (p4Failsafes env4 false (some t) []).finalReply =
        some (env4.createJiraTask (jget (jsonFsParams raw) "summary")) ∧
      p0JsonFailsafe env0 (some t) said0 = ⟨some t, [], said0⟩ := by
  have hum : jIsStr (jget raw "name") "update_memory" = false :=
    jIsStr_unique _ _ _ hct (by decide)
  have hsw : jIsStr (jget raw "name") "search_web" = false :=
    jIsStr_unique _ _ _ hct (by decide)
  have b1 := hbenign "get_file_tree" (by simp [chainOrder])
  have b2 := hbenign "get_issues" (by simp [chainOrder])
  have b3 := hbenign "read_file" (by simp [chainOrder])
  have b4 := hbenign "create_ticket" (by simp [chainOrder])
  have b6 := hbenign "get_prs" (by simp [chainOrder])
  refine ⟨?_, ?_, ?_⟩
  · simp [p4Failsafes, hne, hstart, hincl, hparse, hum, hct, b1, b2, b3, b4,
      b6]
  · simp [p4Failsafes, hne, hstart, hincl, hparse, hum, hct, b1, b2, b3, b4,
      b6]
  · simp [p0JsonFailsafe, hne, hstart, hincl, hparse, hum, hsw]

/-- The JSON failsafe example payload from the specification. -/
def c5Json : String :=
  "\x7b\"name\":\"create_ticket\",\"parameters\":\x7b\"summary\":\"Fix bug\"\x7d\x7d"

/-- The parse of `c5Json`. -/
def c5Obj : JVal :=
  .jobj [("name", .jstr "create_ticket"),
    ("parameters", .jobj [("summary", .jstr "Fix bug")])]

/-- Claim C5, witness: the concrete example payload through both variants. -/
theorem C5_json_failsafe_name_coverage_witness :
    jsonParse c5Json = some c5Obj ∧
      (p4Failsafes benignEnv false (some c5Json) []).executed =
        ["create_ticket"] ∧
      (p4Failsafes benignEnv false (some c5Json) []).finalReply =
        some (benignEnv.createJiraTask (jget (jsonFsParams c5Obj) "summary")) ∧
      p0JsonFailsafe p0SampleEnv (some c5Json) [] = ⟨some c5Json, [], []⟩ := by
  have h := C5_json_failsafe_name_coverage benignEnv p0SampleEnv c5Json c5Obj
    [] (by decide) (by decide) (by decide) rfl rfl (by decide)
  exact ⟨rfl, h.1, h.2.1, h.2.2⟩

/-- Claim C5, counterexample: in the `part_000` handler the example text of
the specification resolves to a plain-text fallback — no tool executes and
the raw JSON text itself is said and stored. -/
theorem C5_example_payload_falls_through :
    (part000Handle p0SampleEnv
        (constModel (.ok ⟨some c5Json, []⟩) (.ok ⟨some "unused", []⟩))
        (fun _ => "pf") none "check this" "Mo" "C1" "SYS").executed = [] ∧
      (part000Handle p0SampleEnv
          (constModel (.ok ⟨some c5Json, []⟩) (.ok ⟨some "unused", []⟩))
          (fun _ => "pf") none "check this" "Mo" "C1" "SYS").said =
        [c5Json] ∧
      (part000Handle p0SampleEnv
          (constModel (.ok ⟨some c5Json, []⟩) (.ok ⟨some "unused", []⟩))
          (fun _ => "pf") none "check this" "Mo" "C1" "SYS").storeAfter =
        some [⟨"user", "check this"⟩, ⟨"assistant", c5Json⟩] := by
  refine ⟨rfl, rfl, rfl⟩

/-! ## Claim C8: the output contract -/

/-- The brain orchestrator never returns the empty string. -/
theorem thinkAndAct_ne_empty (env : ToolEnv)
    (recallMemory : String → Option String) (model : ModelOracle)
    (history : List Turn) (u sp : String) :
    (thinkAndAct env recallMemory model history u sp).finalText ≠ "" := by
  cases h : model (brainFirstRequest recallMemory history u sp) true with
  | err e =>
    have heq : thinkAndAct env recallMemory model history u sp =
        ⟨"Brain Error: " ++ e, [], 1⟩ := by
      simp only [thinkAndAct, h]
    rw [heq]
    exact append_lit_ne_empty "Brain Error: " e (by decide)
  | ok rsp =>
    cases htc : rsp.tool_calls with
    | nil =>
      have heq : thinkAndAct env recallMemory model history u sp =
          ⟨jsOr rsp.content "I\x27m not sure how to respond.", [], 1⟩ := by
        simp only [thinkAndAct, h, htc]
      rw [heq]
      exact jsOr_ne_empty _ _ (by decide)
    | cons tc rest =>
      have heq : thinkAndAct env recallMemory model history u sp =
          ⟨secondCallReply model
              (followUpOf env (brainFirstRequest recallMemory history u sp)
                (tc :: rest)),
            execLogOf (tc :: rest), 2⟩ := by
        simp only [thinkAndAct, h, htc]
      rw [heq]
      cases h2 : model
          (followUpOf env (brainFirstRequest recallMemory history u sp)
            (tc :: rest)) false with
      | err e2 =>
        have hs : secondCallReply model
            (followUpOf env (brainFirstRequest recallMemory history u sp)
              (tc :: rest)) = "Brain Error: " ++ e2 := by
          simp only [secondCallReply, h2]
        exact hs ▸ append_lit_ne_empty "Brain Error: " e2 (by decide)
      | ok fin =>
        have hs : secondCallReply model
            (followUpOf env (brainFirstRequest recallMemory history u sp)
              (tc :: rest)) = jsOr fin.content "Done." := by
          simp only [secondCallReply, h2]
        exact hs ▸ jsOr_ne_empty _ _ (by decide)

/-- Membership in a `safeSay` delivery implies provenance. -/
theorem mem_safeSayApp (l : List String) (t x : String)
    (hx : x ∈ safeSayApp l t) : x ∈ l ∨ (x = t ∧ jsTrim t ≠ "") := by
  unfold safeSayApp at hx
  split at hx
  · exact Or.inl hx
  · split at hx
    · exact Or.inl hx
    · rename_i h2
      rcases List.mem_append.mp hx with h | h
      · exact Or.inl h
      · exact Or.inr ⟨List.mem_singleton.mp h, h2⟩

/-- `safeSay` preserves the no-blank-delivery invariant. -/
theorem safeSayApp_pres (l : List String) (t : String)
    (hl : ∀ x ∈ l, jsTrim x ≠ "") :
    ∀ x ∈ safeSayApp l t, jsTrim x ≠ "" := by
  intro x hx
  rcases mem_safeSayApp l t x hx with h | ⟨rfl, h⟩
  · exact hl x h
  · exact h

/-- Every message the failsafe cascade delivers is non-blank. -/
theorem failsafeChain_said_clean (env : GToolEnv) (t : String)
    (l : List String) (hl : ∀ x ∈ l, jsTrim x ≠ "") :
    ∀ x ∈ (failsafeChain env t l).said, jsTrim x ≠ "" := by
  unfold failsafeChain
  repeat' split
  all_goals
    first
      | exact safeSayApp_pres _ _ (safeSayApp_pres _ _ hl)
      | exact safeSayApp_pres _ _ hl

/-- Every message the Gemini handler delivers is non-blank. -/
theorem geminiHandle_said_clean (env : GToolEnv) (resp : GResp) :
    ∀ x ∈ (geminiHandle env resp).said, jsTrim x ≠ "" := by
  unfold geminiHandle
  repeat' split
  all_goals
    first
      | exact safeSayApp_pres _ _ (safeSayApp_pres _ _ (by simp))
      | exact safeSayApp_pres _ _ (by simp)
      | exact failsafeChain_said_clean _ _ _ (by simp)

/-- Claim C8, amended: the orchestrator always returns defined, nonempty text
(empty and null candidates are replaced by the built-in defaults), and
it never throws — the handlers are total; but a whitespace-only
candidate is not replaced by a default acknowledgement: `safeSay`
suppresses its delivery entirely (the user receives nothing) while the
whitespace text is stored in history, as the counterexample shows. -/
theorem C8_reply_never_empty (env : ToolEnv)
    (recallMemory : String → Option String) (model : ModelOracle)
    (history : List Turn) (u sp : String) (genv : GToolEnv) (resp : GResp) :
    (thinkAndAct env recallMemory model history u sp).finalText ≠ "" ∧
      ∀ x ∈ (geminiHandle genv resp).said, jsTrim x ≠ "" :=
  ⟨thinkAndAct_ne_empty env recallMemory model history u sp,
    geminiHandle_said_clean genv resp⟩

/-- Claim C8, witness: a concrete run of both conjuncts. -/
theorem C8_reply_never_empty_witness :
    (thinkAndAct brainSampleEnv noRecall
        (constModel (.ok ⟨some "hello", []⟩) (.ok ⟨some "x", []⟩)) [] "u"
        "sp").finalText ≠ "" ∧
      ("hello" ∈ (geminiHandle benignEnv ⟨some "hello", none⟩).said) ∧
      jsTrim "hello" ≠ "" := by
  refine ⟨(C8_reply_never_empty brainSampleEnv noRecall
      (constModel (.ok ⟨some "hello", []⟩) (.ok ⟨some "x", []⟩)) [] "u" "sp"
      benignEnv ⟨some "hello", none⟩).1, by decide, ?_⟩
  exact (C8_reply_never_empty brainSampleEnv noRecall
      (constModel (.ok ⟨some "hello", []⟩) (.ok ⟨some "x", []⟩)) [] "u" "sp"
      benignEnv ⟨some "hello", none⟩).2 "hello" (by decide)

end Shehab
